import Mathlib

set_option maxHeartbeats 1000000

-- Shallow embedding of src/edge/pi_battery_monitor.py (the battery-state
-- estimator).  Machine reals are modelled as exact rationals, wall-clock
-- time.time() as an explicit `now` argument, and optional sensor readings
-- as `Option`.

-- Configuration constants from the CONFIG table.
def ocv_rest_min_sec : ℚ := 1800

def rest_current_threshold_a : ℚ := 0.3

def nominal_capacity_ah : ℚ := 60.0

def reference_temp_c : ℚ := 25.0

def temp_coeff_v_per_cell : ℚ := -0.002

def rint_window : Nat := 10

-- OCV table (12V lead-acid at 25 C), in the order it appears in the source.
def OCV_TABLE : List (ℚ × ℚ) :=
  [(12.73, 1.00), (12.62, 0.90), (12.50, 0.80), (12.42, 0.70), (12.32, 0.60),
   (12.20, 0.50), (12.06, 0.40), (11.90, 0.30), (11.75, 0.20), (11.58, 0.10),
   (10.50, 0.00)]

instance : DecidableRel (fun a b : ℚ × ℚ => b.1 ≤ a.1) :=
  fun a b => inferInstanceAs (Decidable (b.1 ≤ a.1))

instance : DecidableRel (fun a b : ℚ => a ≤ b) :=
  fun a b => inferInstanceAs (Decidable (a ≤ b))

-- `sorted(OCV_TABLE, reverse=True)`: descending sort of the anchor list.
-- No two anchors share a voltage, so comparing first components reproduces
-- the Python lexicographic tuple order on this table.
def sortTableDesc (t : List (ℚ × ℚ)) : List (ℚ × ℚ) :=
  List.insertionSort (fun a b => b.1 ≤ a.1) t

-- The scanning loop of interpolate_soc over adjacent anchor pairs
-- (v1, s1 = table[i]; v2, s2 = table[i+1]).
def scanTable : List (ℚ × ℚ) → ℚ → Option ℚ
  | (v1, s1) :: (v2, s2) :: rest, ocv =>
    if v1 ≥ ocv ∧ ocv ≥ v2 then
      some (s2 + (ocv - v2) / (v1 - v2) * (s1 - s2))
    else scanTable ((v2, s2) :: rest) ocv
  | _, _ => none

def interpolate_soc (ocv : ℚ) : ℚ :=
  match scanTable (sortTableDesc OCV_TABLE) ocv with
  | some s => s
  | none =>
    if ocv ≥ ((sortTableDesc OCV_TABLE).headD (0, 0)).1 then 1.0
    else if ocv ≤ ((sortTableDesc OCV_TABLE).getLastD (0, 0)).1 then 0.0
    else 0.0

-- statistics.median: sort ascending; odd length gives the middle element,
-- even length the mean of the two middle elements (never called on []).
def median (xs : List ℚ) : ℚ :=
  let s := List.insertionSort (fun a b : ℚ => a ≤ b) xs
  let n := s.length
  if n % 2 = 1 then s.getD (n / 2) 0
  else (s.getD (n / 2 - 1) 0 + s.getD (n / 2) 0) / 2

-- collections.deque with maxlen: append keeps only the newest maxlen entries.
def dequeAppend (maxlen : Nat) (xs : List ℚ) (x : ℚ) : List ℚ :=
  let ys := xs ++ [x]
  ys.drop (ys.length - maxlen)

@[ext]
structure BatteryEstimator where
  last_rest_time : Option ℚ
  last_rest_voltage : Option ℚ
  last_soc : Option ℚ
  rint_events : List ℚ
  prev_voltage : Option ℚ
  prev_current : Option ℚ
  capacity_est_ah : ℚ
  cycle_discharge_ah : ℚ
  last_soc_full_mark : Option ℚ
  reference_rint : Option ℚ
  deriving DecidableEq

-- BatteryEstimator.__init__
def BatteryEstimator.mkInit : BatteryEstimator where
  last_rest_time := none
  last_rest_voltage := none
  last_soc := none
  rint_events := []
  prev_voltage := none
  prev_current := none
  capacity_est_ah := nominal_capacity_ah
  cycle_discharge_ah := 0.0
  last_soc_full_mark := none
  reference_rint := none

-- temperature_compensate (reads no estimator state, so `self` is dropped).
def BatteryEstimator.temperature_compensate (voltage : ℚ) (temp_c : Option ℚ) : ℚ :=
  match temp_c with
  | none => voltage
  | some t => voltage + (reference_temp_c - t) * (temp_coeff_v_per_cell * 6)

-- resting = (current is None or abs(current) < rest_current_threshold_a)
def isResting (current : Option ℚ) : Bool :=
  match current with
  | none => true
  | some c => decide (|c| < rest_current_threshold_a)

def BatteryEstimator.update_rest (self : BatteryEstimator) (now voltage : ℚ)
    (current : Option ℚ) (temp_c : Option ℚ) : BatteryEstimator :=
  if isResting current then
    match self.last_rest_time with
    | none => { self with last_rest_time := some now }
    | some t0 =>
      if now - t0 ≥ ocv_rest_min_sec then
        let ocv := BatteryEstimator.temperature_compensate voltage temp_c
        { self with last_rest_voltage := some ocv,
                    last_soc := some (interpolate_soc ocv) }
      else self
  else { self with last_rest_time := none }

def BatteryEstimator.detect_rint (self : BatteryEstimator) (voltage : ℚ)
    (current : Option ℚ) : BatteryEstimator :=
  match self.prev_voltage, self.prev_current, current with
  | some pv, some pc, some c =>
    let dv := voltage - pv
    let di := c - pc
    let self1 :=
      if |di| > 0.5 ∧ |dv| > 0.02 then
        let r := |dv| / |di|
        let ev := dequeAppend rint_window self.rint_events r
        let ref :=
          if self.reference_rint = none ∧ ev.length ≥ 5 then some (median ev)
          else self.reference_rint
        { self with rint_events := ev, reference_rint := ref }
      else self
    { self1 with prev_voltage := some voltage, prev_current := some c }
  | _, _, _ => { self with prev_voltage := some voltage, prev_current := current }

def BatteryEstimator.update_capacity (self : BatteryEstimator) (current : Option ℚ)
    (dt_sec now : ℚ) : BatteryEstimator :=
  match current, self.last_soc with
  | some c, some soc =>
    let self1 :=
      if c > 0 then
        { self with cycle_discharge_ah := self.cycle_discharge_ah + c * dt_sec / 3600.0 }
      else self
    if soc ≥ 0.95 then
      match self1.last_soc_full_mark with
      | none => { self1 with last_soc_full_mark := some now }
      | some m =>
        if now - m > 1800 then
          let self2 :=
            if self1.cycle_discharge_ah > 1.0 then
              { self1 with capacity_est_ah :=
                  0.3 * self1.cycle_discharge_ah + (1 - 0.3) * self1.capacity_est_ah }
            else self1
          { self2 with cycle_discharge_ah := 0.0 }
        else self1
    else { self1 with last_soc_full_mark := none }
  | _, _ => self

def BatteryEstimator.compute_soh (self : BatteryEstimator) : ℚ × ℚ × ℚ :=
  let soh_c := min (self.capacity_est_ah / nominal_capacity_ah) 1.0
  let soh_r :=
    if self.rint_events.isEmpty then 1.0
    else
      let current_r := median self.rint_events
      match self.reference_rint with
      | none => 1.0
      | some ref => max (min (ref / current_r) 1.0) 0.0
  let soh := 0.6 * soh_c + 0.4 * soh_r
  (soh * 100.0, soh_c * 100.0, soh_r * 100.0)

def BatteryEstimator.build_flags (self : BatteryEstimator) (soh soh_c soh_r : ℚ) :
    List String :=
  (if soh < 50 then ["critical_health"]
   else if soh < 70 then ["degraded"] else [])
  ++ (if soh_c < 70 then ["capacity_fade"] else [])
  ++ (if soh_r < 70 then ["resistance_high"] else [])
  ++ (if self.last_soc = none then ["soc_unconfirmed_rest"] else [])

-- Python float round(): round half to even, modelled on exact rationals.
def roundHalfEven (q : ℚ) : ℤ :=
  if q - ⌊q⌋ < 1 / 2 then ⌊q⌋
  else if q - ⌊q⌋ > 1 / 2 then ⌊q⌋ + 1
  else if ⌊q⌋ % 2 = 0 then ⌊q⌋ else ⌊q⌋ + 1

def roundTo (ndigits : Nat) (q : ℚ) : ℚ :=
  ((roundHalfEven (q * 10 ^ ndigits) : ℚ)) / 10 ^ ndigits

structure Snapshot where
  voltage : ℚ
  temp_c : Option ℚ
  soc : Option ℚ
  soh : ℚ
  soh_capacity : ℚ
  soh_resistance : ℚ
  capacity_est_ah : ℚ
  r_int_median : Option ℚ
  flags : List String
  deriving DecidableEq

-- snapshot(): the wall-clock ISO timestamp field is outside the model.
def BatteryEstimator.snapshot (self : BatteryEstimator) (voltage : ℚ)
    (current : Option ℚ) (temp_c : Option ℚ) : Snapshot :=
  let r := BatteryEstimator.compute_soh self
  { voltage := roundTo 3 voltage
    temp_c := temp_c.map (fun t => roundTo 2 t)
    soc := self.last_soc.map (fun s => roundTo 1 (s * 100))
    soh := roundTo 1 r.1
    soh_capacity := roundTo 1 r.2.1
    soh_resistance := roundTo 1 r.2.2
    capacity_est_ah := roundTo 2 self.capacity_est_ah
    r_int_median :=
      if self.rint_events.isEmpty then none
      else some (roundTo 4 (median self.rint_events))
    flags := BatteryEstimator.build_flags self r.1 r.2.1 r.2.2 }

-- ---------------------------------------------------------------------------
-- Helper lemmas about the OCV interpolator.
-- ---------------------------------------------------------------------------

-- Anchor accessors, for stating per-segment facts about the table.
def anchorV (i : Nat) : ℚ := (OCV_TABLE.getD i (0, 0)).1

def anchorS (i : Nat) : ℚ := (OCV_TABLE.getD i (0, 0)).2

lemma aV0 : anchorV 0 = 12.73 := rfl

lemma aV1 : anchorV 1 = 12.62 := rfl

lemma aV2 : anchorV 2 = 12.50 := rfl

lemma aV3 : anchorV 3 = 12.42 := rfl

lemma aV4 : anchorV 4 = 12.32 := rfl

lemma aV5 : anchorV 5 = 12.20 := rfl

lemma aV6 : anchorV 6 = 12.06 := rfl

lemma aV7 : anchorV 7 = 11.90 := rfl

lemma aV8 : anchorV 8 = 11.75 := rfl

lemma aV9 : anchorV 9 = 11.58 := rfl

lemma aV10 : anchorV 10 = 10.50 := rfl

lemma aS0 : anchorS 0 = 1.00 := rfl

lemma aS1 : anchorS 1 = 0.90 := rfl

lemma aS2 : anchorS 2 = 0.80 := rfl

lemma aS3 : anchorS 3 = 0.70 := rfl

lemma aS4 : anchorS 4 = 0.60 := rfl

lemma aS5 : anchorS 5 = 0.50 := rfl

lemma aS6 : anchorS 6 = 0.40 := rfl

lemma aS7 : anchorS 7 = 0.30 := rfl

lemma aS8 : anchorS 8 = 0.20 := rfl

lemma aS9 : anchorS 9 = 0.10 := rfl

lemma aS10 : anchorS 10 = 0.00 := rfl

-- The source sorts the already-descending table; sorting is the identity here.
lemma sortTable_eq : sortTableDesc OCV_TABLE = OCV_TABLE := by
  norm_num [sortTableDesc, OCV_TABLE, List.insertionSort, List.orderedInsert]

lemma scanTable_skip_lo (v1 s1 v2 s2 : ℚ) (rest : List (ℚ × ℚ)) (ocv : ℚ)
    (h : ocv < v2) :
    scanTable ((v1, s1) :: (v2, s2) :: rest) ocv = scanTable ((v2, s2) :: rest) ocv := by
  simp only [scanTable]
  rw [if_neg]
  rintro ⟨-, h2⟩
  exact absurd h2 (not_le.mpr h)

lemma scanTable_skip_hi (v1 s1 v2 s2 : ℚ) (rest : List (ℚ × ℚ)) (ocv : ℚ)
    (h : v1 < ocv) :
    scanTable ((v1, s1) :: (v2, s2) :: rest) ocv = scanTable ((v2, s2) :: rest) ocv := by
  simp only [scanTable]
  rw [if_neg]
  rintro ⟨h1, -⟩
  exact absurd h1 (not_le.mpr h)

lemma scanTable_hit (v1 s1 v2 s2 : ℚ) (rest : List (ℚ × ℚ)) (ocv : ℚ)
    (h1 : ocv ≤ v1) (h2 : v2 ≤ ocv) :
    scanTable ((v1, s1) :: (v2, s2) :: rest) ocv
      = some (s2 + (ocv - v2) / (v1 - v2) * (s1 - s2)) := by
  simp only [scanTable]
  rw [if_pos ⟨h1, h2⟩]

lemma scanTable_single (v s ocv : ℚ) : scanTable [(v, s)] ocv = none := rfl

lemma interp_of_scan (ocv x : ℚ) (h : scanTable OCV_TABLE ocv = some x) :
    interpolate_soc ocv = x := by
  simp only [interpolate_soc, sortTable_eq, h]

lemma interp_seg0 (v : ℚ) (h1 : (12.62 : ℚ) ≤ v) (h2 : v ≤ 12.73) :
    interpolate_soc v = 0.90 + (v - 12.62) / (12.73 - 12.62) * (1.00 - 0.90) := by
  apply interp_of_scan
  unfold OCV_TABLE
  exact scanTable_hit _ _ _ _ _ _ h2 h1

lemma interp_seg1 (v : ℚ) (h1 : (12.50 : ℚ) ≤ v) (h2 : v < 12.62) :
    interpolate_soc v = 0.80 + (v - 12.50) / (12.62 - 12.50) * (0.90 - 0.80) := by
  apply interp_of_scan
  unfold OCV_TABLE
  rw [scanTable_skip_lo _ _ _ _ _ _ (by linarith)]
  exact scanTable_hit _ _ _ _ _ _ (by linarith) h1

lemma interp_seg2 (v : ℚ) (h1 : (12.42 : ℚ) ≤ v) (h2 : v < 12.50) :
    interpolate_soc v = 0.70 + (v - 12.42) / (12.50 - 12.42) * (0.80 - 0.70) := by
  apply interp_of_scan
  unfold OCV_TABLE
  rw [scanTable_skip_lo _ _ _ _ _ _ (by linarith),
      scanTable_skip_lo _ _ _ _ _ _ (by linarith)]
  exact scanTable_hit _ _ _ _ _ _ (by linarith) h1

lemma interp_seg3 (v : ℚ) (h1 : (12.32 : ℚ) ≤ v) (h2 : v < 12.42) :
    interpolate_soc v = 0.60 + (v - 12.32) / (12.42 - 12.32) * (0.70 - 0.60) := by
  apply interp_of_scan
  unfold OCV_TABLE
  rw [scanTable_skip_lo _ _ _ _ _ _ (by linarith),
      scanTable_skip_lo _ _ _ _ _ _ (by linarith),
      scanTable_skip_lo _ _ _ _ _ _ (by linarith)]
  exact scanTable_hit _ _ _ _ _ _ (by linarith) h1

lemma interp_seg4 (v : ℚ) (h1 : (12.20 : ℚ) ≤ v) (h2 : v < 12.32) :
    interpolate_soc v = 0.50 + (v - 12.20) / (12.32 - 12.20) * (0.60 - 0.50) := by
  apply interp_of_scan
  unfold OCV_TABLE
  rw [scanTable_skip_lo _ _ _ _ _ _ (by linarith),
      scanTable_skip_lo _ _ _ _ _ _ (by linarith),
      scanTable_skip_lo _ _ _ _ _ _ (by linarith),
      scanTable_skip_lo _ _ _ _ _ _ (by linarith)]
  exact scanTable_hit _ _ _ _ _ _ (by linarith) h1

lemma interp_seg5 (v : ℚ) (h1 : (12.06 : ℚ) ≤ v) (h2 : v < 12.20) :
    interpolate_soc v = 0.40 + (v - 12.06) / (12.20 - 12.06) * (0.50 - 0.40) := by
  apply interp_of_scan
  unfold OCV_TABLE
  rw [scanTable_skip_lo _ _ _ _ _ _ (by linarith),
      scanTable_skip_lo _ _ _ _ _ _ (by linarith),
      scanTable_skip_lo _ _ _ _ _ _ (by linarith),
      scanTable_skip_lo _ _ _ _ _ _ (by linarith),
      scanTable_skip_lo _ _ _ _ _ _ (by linarith)]
  exact scanTable_hit _ _ _ _ _ _ (by linarith) h1

lemma interp_seg6 (v : ℚ) (h1 : (11.90 : ℚ) ≤ v) (h2 : v < 12.06) :
    interpolate_soc v = 0.30 + (v - 11.90) / (12.06 - 11.90) * (0.40 - 0.30) := by
  apply interp_of_scan
  unfold OCV_TABLE
  rw [scanTable_skip_lo _ _ _ _ _ _ (by linarith),
      scanTable_skip_lo _ _ _ _ _ _ (by linarith),
      scanTable_skip_lo _ _ _ _ _ _ (by linarith),
      scanTable_skip_lo _ _ _ _ _ _ (by linarith),
      scanTable_skip_lo _ _ _ _ _ _ (by linarith),
      scanTable_skip_lo _ _ _ _ _ _ (by linarith)]
  exact scanTable_hit _ _ _ _ _ _ (by linarith) h1

lemma interp_seg7 (v : ℚ) (h1 : (11.75 : ℚ) ≤ v) (h2 : v < 11.90) :
    interpolate_soc v = 0.20 + (v - 11.75) / (11.90 - 11.75) * (0.30 - 0.20) := by
  apply interp_of_scan
  unfold OCV_TABLE
  rw [scanTable_skip_lo _ _ _ _ _ _ (by linarith),
      scanTable_skip_lo _ _ _ _ _ _ (by linarith),
      scanTable_skip_lo _ _ _ _ _ _ (by linarith),
      scanTable_skip_lo _ _ _ _ _ _ (by linarith),
      scanTable_skip_lo _ _ _ _ _ _ (by linarith),
      scanTable_skip_lo _ _ _ _ _ _ (by linarith),
      scanTable_skip_lo _ _ _ _ _ _ (by linarith)]
  exact scanTable_hit _ _ _ _ _ _ (by linarith) h1

lemma interp_seg8 (v : ℚ) (h1 : (11.58 : ℚ) ≤ v) (h2 : v < 11.75) :
    interpolate_soc v = 0.10 + (v - 11.58) / (11.75 - 11.58) * (0.20 - 0.10) := by
  apply interp_of_scan
  unfold OCV_TABLE
  rw [scanTable_skip_lo _ _ _ _ _ _ (by linarith),
      scanTable_skip_lo _ _ _ _ _ _ (by linarith),
      scanTable_skip_lo _ _ _ _ _ _ (by linarith),
      scanTable_skip_lo _ _ _ _ _ _ (by linarith),
      scanTable_skip_lo _ _ _ _ _ _ (by linarith),
      scanTable_skip_lo _ _ _ _ _ _ (by linarith),
      scanTable_skip_lo _ _ _ _ _ _ (by linarith),
      scanTable_skip_lo _ _ _ _ _ _ (by linarith)]
  exact scanTable_hit _ _ _ _ _ _ (by linarith) h1

lemma interp_seg9 (v : ℚ) (h1 : (10.50 : ℚ) ≤ v) (h2 : v < 11.58) :
    interpolate_soc v = 0.00 + (v - 10.50) / (11.58 - 10.50) * (0.10 - 0.00) := by
  apply interp_of_scan
  unfold OCV_TABLE
  rw [scanTable_skip_lo _ _ _ _ _ _ (by linarith),
      scanTable_skip_lo _ _ _ _ _ _ (by linarith),
      scanTable_skip_lo _ _ _ _ _ _ (by linarith),
      scanTable_skip_lo _ _ _ _ _ _ (by linarith),
      scanTable_skip_lo _ _ _ _ _ _ (by linarith),
      scanTable_skip_lo _ _ _ _ _ _ (by linarith),
      scanTable_skip_lo _ _ _ _ _ _ (by linarith),
      scanTable_skip_lo _ _ _ _ _ _ (by linarith),
      scanTable_skip_lo _ _ _ _ _ _ (by linarith)]
  exact scanTable_hit _ _ _ _ _ _ (by linarith) h1

lemma scan_none_hi (v : ℚ) (h : (12.73 : ℚ) < v) : scanTable OCV_TABLE v = none := by
  unfold OCV_TABLE
  rw [scanTable_skip_hi _ _ _ _ _ _ (by linarith),
      scanTable_skip_hi _ _ _ _ _ _ (by linarith),
      scanTable_skip_hi _ _ _ _ _ _ (by linarith),
      scanTable_skip_hi _ _ _ _ _ _ (by linarith),
      scanTable_skip_hi _ _ _ _ _ _ (by linarith),
      scanTable_skip_hi _ _ _ _ _ _ (by linarith),
      scanTable_skip_hi _ _ _ _ _ _ (by linarith),
      scanTable_skip_hi _ _ _ _ _ _ (by linarith),
      scanTable_skip_hi _ _ _ _ _ _ (by linarith),
      scanTable_skip_hi _ _ _ _ _ _ (by linarith)]
  exact scanTable_single _ _ _

lemma scan_none_lo (v : ℚ) (h : v < (10.50 : ℚ)) : scanTable OCV_TABLE v = none := by
  unfold OCV_TABLE
  rw [scanTable_skip_lo _ _ _ _ _ _ (by linarith),
      scanTable_skip_lo _ _ _ _ _ _ (by linarith),
      scanTable_skip_lo _ _ _ _ _ _ (by linarith),
      scanTable_skip_lo _ _ _ _ _ _ (by linarith),
      scanTable_skip_lo _ _ _ _ _ _ (by linarith),
      scanTable_skip_lo _ _ _ _ _ _ (by linarith),
      scanTable_skip_lo _ _ _ _ _ _ (by linarith),
      scanTable_skip_lo _ _ _ _ _ _ (by linarith),
      scanTable_skip_lo _ _ _ _ _ _ (by linarith),
      scanTable_skip_lo _ _ _ _ _ _ (by linarith)]
  exact scanTable_single _ _ _

lemma interp_top (v : ℚ) (h : (12.73 : ℚ) ≤ v) : interpolate_soc v = 1 := by
  rcases eq_or_lt_of_le h with he | hlt
  · rw [interp_seg0 v (by linarith) (by linarith), ← he]
    norm_num
  · have hn := scan_none_hi v hlt
    simp only [interpolate_soc, sortTable_eq, hn]
    split_ifs with hc1 hc2
    · norm_num
    · norm_num [OCV_TABLE] at hc1
      linarith
    · norm_num [OCV_TABLE] at hc1
      linarith

lemma interp_bot (v : ℚ) (h : v ≤ (10.50 : ℚ)) : interpolate_soc v = 0 := by
  rcases eq_or_lt_of_le h with he | hlt
  · rw [interp_seg9 v (by linarith) (by linarith), he]
    norm_num
  · have hn := scan_none_lo v hlt
    simp only [interpolate_soc, sortTable_eq, hn]
    split_ifs with hc1 hc2
    · norm_num [OCV_TABLE] at hc1
      linarith
    · norm_num
    · norm_num [OCV_TABLE] at hc2
      linarith

lemma interp_seg (i : Nat) (hi : i < 10) (v : ℚ)
    (h1 : anchorV (i + 1) ≤ v) (h2 : v ≤ anchorV i) :
    interpolate_soc v
      = anchorS (i + 1) + (v - anchorV (i + 1)) / (anchorV i - anchorV (i + 1))
          * (anchorS i - anchorS (i + 1)) := by
  interval_cases i <;>
    norm_num [aV0, aV1, aV2, aV3, aV4, aV5, aV6, aV7, aV8, aV9, aV10,
              aS0, aS1, aS2, aS3, aS4, aS5, aS6, aS7, aS8, aS9, aS10] at h1 h2 ⊢
  · rw [interp_seg0 v (by norm_num; linarith) (by norm_num; linarith)]
    ring_nf
  · rcases eq_or_lt_of_le h2 with he | hlt
    · rw [interp_seg0 v (by norm_num; linarith) (by norm_num; linarith), he]
      norm_num
    · rw [interp_seg1 v (by norm_num; linarith) (by norm_num; linarith)]
      ring_nf
  · rcases eq_or_lt_of_le h2 with he | hlt
    · rw [interp_seg1 v (by norm_num; linarith) (by norm_num; linarith), he]
      norm_num
    · rw [interp_seg2 v (by norm_num; linarith) (by norm_num; linarith)]
      ring_nf
  · rcases eq_or_lt_of_le h2 with he | hlt
    · rw [interp_seg2 v (by norm_num; linarith) (by norm_num; linarith), he]
      norm_num
    · rw [interp_seg3 v (by norm_num; linarith) (by norm_num; linarith)]
      ring_nf
  · rcases eq_or_lt_of_le h2 with he | hlt
    · rw [interp_seg3 v (by norm_num; linarith) (by norm_num; linarith), he]
      norm_num
    · rw [interp_seg4 v (by norm_num; linarith) (by norm_num; linarith)]
      ring_nf
  · rcases eq_or_lt_of_le h2 with he | hlt
    · rw [interp_seg4 v (by norm_num; linarith) (by norm_num; linarith), he]
      norm_num
    · rw [interp_seg5 v (by norm_num; linarith) (by norm_num; linarith)]
      ring_nf
  · rcases eq_or_lt_of_le h2 with he | hlt
    · rw [interp_seg5 v (by norm_num; linarith) (by norm_num; linarith), he]
      norm_num
    · rw [interp_seg6 v (by norm_num; linarith) (by norm_num; linarith)]
      ring_nf
  · rcases eq_or_lt_of_le h2 with he | hlt
    · rw [interp_seg6 v (by norm_num; linarith) (by norm_num; linarith), he]
      norm_num
    · rw [interp_seg7 v (by norm_num; linarith) (by norm_num; linarith)]
      ring_nf
  · rcases eq_or_lt_of_le h2 with he | hlt
    · rw [interp_seg7 v (by norm_num; linarith) (by norm_num; linarith), he]
      norm_num
    · rw [interp_seg8 v (by norm_num; linarith) (by norm_num; linarith)]
      ring_nf
  · rcases eq_or_lt_of_le h2 with he | hlt
    · rw [interp_seg8 v (by norm_num; linarith) (by norm_num; linarith), he]
      norm_num
    · rw [interp_seg9 v (by norm_num; linarith) (by norm_num; linarith)]
      ring_nf

lemma interp_regions (v : ℚ) :
    (12.73 : ℚ) < v ∨ v < (10.50 : ℚ) ∨
      ∃ i, i < 10 ∧ anchorV (i + 1) ≤ v ∧ v ≤ anchorV i := by
  rcases lt_or_le (12.73 : ℚ) v with h | h
  · exact Or.inl h
  rcases lt_or_le v (10.50 : ℚ) with hb | hb
  · exact Or.inr (Or.inl hb)
  refine Or.inr (Or.inr ?_)
  rcases le_or_lt (12.62 : ℚ) v with h0 | h0
  · exact ⟨0, by norm_num, by rw [aV1]; exact h0, by rw [aV0]; exact h⟩
  rcases le_or_lt (12.50 : ℚ) v with h1 | h1
  · exact ⟨1, by norm_num, by rw [aV2]; exact h1, by rw [aV1]; linarith⟩
  rcases le_or_lt (12.42 : ℚ) v with h2 | h2
  · exact ⟨2, by norm_num, by rw [aV3]; exact h2, by rw [aV2]; linarith⟩
  rcases le_or_lt (12.32 : ℚ) v with h3 | h3
  · exact ⟨3, by norm_num, by rw [aV4]; exact h3, by rw [aV3]; linarith⟩
  rcases le_or_lt (12.20 : ℚ) v with h4 | h4
  · exact ⟨4, by norm_num, by rw [aV5]; exact h4, by rw [aV4]; linarith⟩
  rcases le_or_lt (12.06 : ℚ) v with h5 | h5
  · exact ⟨5, by norm_num, by rw [aV6]; exact h5, by rw [aV5]; linarith⟩
  rcases le_or_lt (11.90 : ℚ) v with h6 | h6
  · exact ⟨6, by norm_num, by rw [aV7]; exact h6, by rw [aV6]; linarith⟩
  rcases le_or_lt (11.75 : ℚ) v with h7 | h7
  · exact ⟨7, by norm_num, by rw [aV8]; exact h7, by rw [aV7]; linarith⟩
  rcases le_or_lt (11.58 : ℚ) v with h8 | h8
  · exact ⟨8, by norm_num, by rw [aV9]; exact h8, by rw [aV8]; linarith⟩
  exact ⟨9, by norm_num, by rw [aV10]; exact hb, by rw [aV9]; linarith⟩

lemma interp_nonneg (v : ℚ) : 0 ≤ interpolate_soc v := by
  rcases interp_regions v with h | h | ⟨i, hi, h1, h2⟩
  · rw [interp_top v (le_of_lt h)]
    norm_num
  · rw [interp_bot v (le_of_lt h)]
  · rw [interp_seg i hi v h1 h2]
    interval_cases i <;>
      norm_num [aV0, aV1, aV2, aV3, aV4, aV5, aV6, aV7, aV8, aV9, aV10,
                aS0, aS1, aS2, aS3, aS4, aS5, aS6, aS7, aS8, aS9, aS10] at h1 h2 ⊢ <;>
      linarith

lemma interp_le_one (v : ℚ) : interpolate_soc v ≤ 1 := by
  rcases interp_regions v with h | h | ⟨i, hi, h1, h2⟩
  · rw [interp_top v (le_of_lt h)]
  · rw [interp_bot v (le_of_lt h)]
    norm_num
  · rw [interp_seg i hi v h1 h2]
    interval_cases i <;>
      norm_num [aV0, aV1, aV2, aV3, aV4, aV5, aV6, aV7, aV8, aV9, aV10,
                aS0, aS1, aS2, aS3, aS4, aS5, aS6, aS7, aS8, aS9, aS10] at h1 h2 ⊢ <;>
      linarith

lemma interp_mono (va vb : ℚ) (h : vb ≤ va) :
    interpolate_soc vb ≤ interpolate_soc va := by
  rcases interp_regions va with ha | ha | ⟨i, hi, ha1, ha2⟩
  · rw [interp_top va (le_of_lt ha)]
    exact interp_le_one vb
  · rw [interp_bot va (le_of_lt ha), interp_bot vb (by linarith)]
  · rcases interp_regions vb with hb | hb | ⟨j, hj, hb1, hb2⟩
    · exfalso
      have hA : anchorV i ≤ 12.73 := by
        interval_cases i <;>
          norm_num [aV0, aV1, aV2, aV3, aV4, aV5, aV6, aV7, aV8, aV9, aV10]
      linarith
    · rw [interp_bot vb (le_of_lt hb)]
      exact interp_nonneg va
    · rw [interp_seg i hi va ha1 ha2, interp_seg j hj vb hb1 hb2]
      interval_cases i <;> interval_cases j <;>
        norm_num [aV0, aV1, aV2, aV3, aV4, aV5, aV6, aV7, aV8, aV9, aV10,
                  aS0, aS1, aS2, aS3, aS4, aS5, aS6, aS7, aS8, aS9, aS10]
          at ha1 ha2 hb1 hb2 ⊢ <;>
        linarith

-- ---------------------------------------------------------------------------
-- Claims C5 and C6: the OCV interpolator.
-- ---------------------------------------------------------------------------

/-- Claim C5: interpolate_soc always returns a value in [0, 1] with no error
path; each anchor (v, s) of the OCV table maps to s exactly; any voltage above
the highest anchor (12.73 V) returns 1.0; any voltage below the lowest anchor
(10.50 V) returns 0.0; voltages between adjacent anchors return the linear
interpolation s2 + (v - v2) / (v1 - v2) * (s1 - s2). -/
theorem claim_C5 :
    (∀ v : ℚ, 0 ≤ interpolate_soc v ∧ interpolate_soc v ≤ 1)
    ∧ (∀ p ∈ OCV_TABLE, interpolate_soc p.1 = p.2)
    ∧ (∀ v : ℚ, (12.73 : ℚ) < v → interpolate_soc v = 1)
    ∧ (∀ v : ℚ, v < (10.50 : ℚ) → interpolate_soc v = 0)
    ∧ (∀ i : Nat, i < 10 → ∀ v : ℚ, anchorV (i + 1) ≤ v → v ≤ anchorV i →
        interpolate_soc v
          = anchorS (i + 1) + (v - anchorV (i + 1)) / (anchorV i - anchorV (i + 1))
              * (anchorS i - anchorS (i + 1))) := by
  refine ⟨fun v => ⟨interp_nonneg v, interp_le_one v⟩, ?_,
    fun v hv => interp_top v (le_of_lt hv),
    fun v hv => interp_bot v (le_of_lt hv),
    fun i hi v h1 h2 => interp_seg i hi v h1 h2⟩
  intro p hp
  simp only [OCV_TABLE, List.mem_cons, List.not_mem_nil, or_false] at hp
  rcases hp with h|h|h|h|h|h|h|h|h|h|h <;> subst h
  · show interpolate_soc 12.73 = 1.00
    rw [interp_top 12.73 (by norm_num)]
    norm_num
  · show interpolate_soc 12.62 = 0.90
    rw [interp_seg0 12.62 (by norm_num) (by norm_num)]
    norm_num
  · show interpolate_soc 12.50 = 0.80
    rw [interp_seg1 12.50 (by norm_num) (by norm_num)]
    norm_num
  · show interpolate_soc 12.42 = 0.70
    rw [interp_seg2 12.42 (by norm_num) (by norm_num)]
    norm_num
  · show interpolate_soc 12.32 = 0.60
    rw [interp_seg3 12.32 (by norm_num) (by norm_num)]
    norm_num
  · show interpolate_soc 12.20 = 0.50
    rw [interp_seg4 12.20 (by norm_num) (by norm_num)]
    norm_num
  · show interpolate_soc 12.06 = 0.40
    rw [interp_seg5 12.06 (by norm_num) (by norm_num)]
    norm_num
  · show interpolate_soc 11.90 = 0.30
    rw [interp_seg6 11.90 (by norm_num) (by norm_num)]
    norm_num
  · show interpolate_soc 11.75 = 0.20
    rw [interp_seg7 11.75 (by norm_num) (by norm_num)]
    norm_num
  · show interpolate_soc 11.58 = 0.10
    rw [interp_seg8 11.58 (by norm_num) (by norm_num)]
    norm_num
  · show interpolate_soc 10.50 = 0.00
    rw [interp_bot 10.50 (by norm_num)]
    norm_num

/-- Witness for claim C5 at concrete inputs: 13 V is above the top anchor and
maps to 1, and the anchor 12.42 V maps exactly to SoC 0.70. -/
theorem claim_C5_witness :
    (12.73 : ℚ) < 13 ∧ interpolate_soc 13 = 1
    ∧ ((12.42 : ℚ), (0.70 : ℚ)) ∈ OCV_TABLE ∧ interpolate_soc 12.42 = 0.70 := by
  refine ⟨by norm_num, claim_C5.2.2.1 13 (by norm_num), by norm_num [OCV_TABLE], ?_⟩
  exact claim_C5.2.1 (12.42, 0.70) (by norm_num [OCV_TABLE])

/-- Claim C6: interpolate_soc is monotonic; for every pair of voltages
va ≥ vb the interpolated SoC satisfies interpolate_soc va ≥ interpolate_soc vb. -/
theorem claim_C6 (va vb : ℚ) (h : vb ≤ va) :
    interpolate_soc vb ≤ interpolate_soc va :=
  interp_mono va vb h

/-- Witness for claim C6 at a concrete pair of voltages. -/
theorem claim_C6_witness : interpolate_soc (12.1 : ℚ) ≤ interpolate_soc (12.7 : ℚ) :=
  claim_C6 12.7 12.1 (by norm_num)

-- ---------------------------------------------------------------------------
-- Claims about the rest detector (update_rest).
-- ---------------------------------------------------------------------------

/-- Claim C3: while resting with a running rest timer, lastSoc and
lastRestVoltage are untouched (the whole state is unchanged) as long as the
elapsed time since the rest-entry timestamp is strictly below
ocv_rest_min_sec; on every resting sample with elapsed time at least
ocv_rest_min_sec the temperature-compensated voltage is promoted to
lastRestVoltage, lastSoc is recomputed via the interpolator, and the rest
timer is left intact, so the promotion repeats on every later resting
sample. -/
theorem claim_C3 (st : BatteryEstimator) (now voltage : ℚ)
    (current : Option ℚ) (temp_c : Option ℚ) (t0 : ℚ)
    (hrest : isResting current = true) (ht : st.last_rest_time = some t0) :
    (now - t0 < ocv_rest_min_sec →
      BatteryEstimator.update_rest st now voltage current temp_c = st)
    ∧ (ocv_rest_min_sec ≤ now - t0 →
      (BatteryEstimator.update_rest st now voltage current temp_c).last_rest_voltage
          = some (BatteryEstimator.temperature_compensate voltage temp_c)
        ∧ (BatteryEstimator.update_rest st now voltage current temp_c).last_soc
          = some (interpolate_soc (BatteryEstimator.temperature_compensate voltage temp_c))
        ∧ (BatteryEstimator.update_rest st now voltage current temp_c).last_rest_time
          = some t0) := by
  constructor
  · intro hlt
    simp only [BatteryEstimator.update_rest, hrest, if_true, ht]
    rw [if_neg (not_le.mpr hlt)]
  · intro hge
    simp only [BatteryEstimator.update_rest, hrest, if_true, ht]
    rw [if_pos hge]
    exact ⟨rfl, rfl, rfl⟩

def c3State : BatteryEstimator := { BatteryEstimator.mkInit with last_rest_time := some 0 }

/-- Witness for claim C3: a resting sample at time 1800 with the rest timer
started at 0 promotes the (uncompensated) voltage into lastSoc. -/
theorem claim_C3_witness :
    (BatteryEstimator.update_rest c3State 1800 12.62 (some 0) none).last_soc
      = some (interpolate_soc (BatteryEstimator.temperature_compensate 12.62 none)) := by
  have h := claim_C3 c3State 1800 12.62 (some 0) none 0
    (by norm_num [isResting, rest_current_threshold_a]) rfl
  exact (h.2 (by norm_num [ocv_rest_min_sec])).2.1

/-- Claim C9: a sample with current magnitude at or above the rest threshold
drives the detector ACTIVE: the rest-start timestamp is cleared (and nothing
else changes); a following resting sample restarts the timer at its own
time, and a promotion cannot happen until a fresh uninterrupted rest of at
least ocv_rest_min_sec has elapsed (lastSoc is untouched before that). -/
theorem claim_C9 (st : BatteryEstimator) (now voltage c : ℚ) (temp_c : Option ℚ)
    (h : rest_current_threshold_a ≤ |c|) :
    BatteryEstimator.update_rest st now voltage (some c) temp_c
        = { st with last_rest_time := none }
    ∧ (∀ now1 v1 : ℚ, ∀ c1 t1 : Option ℚ, isResting c1 = true →
        (BatteryEstimator.update_rest
            (BatteryEstimator.update_rest st now voltage (some c) temp_c)
            now1 v1 c1 t1).last_rest_time = some now1)
    ∧ (∀ now1 v1 now2 v2 : ℚ, ∀ c1 t1 c2 t2 : Option ℚ,
        isResting c1 = true → isResting c2 = true →
        now2 - now1 < ocv_rest_min_sec →
        (BatteryEstimator.update_rest
          (BatteryEstimator.update_rest
            (BatteryEstimator.update_rest st now voltage (some c) temp_c)
            now1 v1 c1 t1)
          now2 v2 c2 t2).last_soc = st.last_soc) := by
  have hb : isResting (some c) = false := by
    simp only [isResting, decide_eq_false_iff_not, not_lt]
    exact h
  have e1 : BatteryEstimator.update_rest st now voltage (some c) temp_c
      = { st with last_rest_time := none } := by
    simp [BatteryEstimator.update_rest, hb]
  refine ⟨e1, ?_, ?_⟩
  · intro now1 v1 c1 t1 hc1
    rw [e1]
    simp [BatteryEstimator.update_rest, hc1]
  · intro now1 v1 now2 v2 c1 t1 c2 t2 hc1 hc2 hlt
    rw [e1]
    have e2 : BatteryEstimator.update_rest { st with last_rest_time := none }
        now1 v1 c1 t1 = { st with last_rest_time := some now1 } := by
      simp [BatteryEstimator.update_rest, hc1]
    rw [e2]
    have e3 : BatteryEstimator.update_rest { st with last_rest_time := some now1 }
        now2 v2 c2 t2 = { st with last_rest_time := some now1 } := by
      simp only [BatteryEstimator.update_rest, hc2, if_true]
      rw [if_neg (not_le.mpr hlt)]
    rw [e3]

def c9State : BatteryEstimator :=
  { BatteryEstimator.mkInit with last_rest_time := some 0, last_soc := some 0.5 }

/-- Witness for claim C9: an active sample (2 A) between two short rest
periods leaves lastSoc unchanged. -/
theorem claim_C9_witness :
    (BatteryEstimator.update_rest
      (BatteryEstimator.update_rest
        (BatteryEstimator.update_rest c9State 10 12.5 (some 2) none) 12 12.5 none none)
      100 12.5 none none).last_soc = c9State.last_soc := by
  have h := claim_C9 c9State 10 12.5 2 none
    (by rw [abs_of_pos (by norm_num : (0:ℚ) < 2)]; norm_num [rest_current_threshold_a])
  exact h.2.2 12 12.5 100 12.5 none none none none rfl rfl (by norm_num [ocv_rest_min_sec])

-- update_capacity neither reads nor writes the rest-start timestamp.
lemma update_capacity_lrt (st : BatteryEstimator) (cur : Option ℚ) (dt n : ℚ) :
    BatteryEstimator.update_capacity { st with last_rest_time := none } cur dt n
      = { BatteryEstimator.update_capacity st cur dt n with last_rest_time := none } := by
  rcases st with ⟨lrt, lrv, lsoc, rev, pv, pc, cap, cyc, mark, ref⟩
  rcases cur with _ | c
  · rfl
  rcases lsoc with _ | soc
  · rfl
  by_cases hc : c > (0 : ℚ) <;> by_cases hs : soc ≥ (0.95 : ℚ) <;>
    rcases mark with _ | m <;>
      simp only [BatteryEstimator.update_capacity, hc, hs, if_true, if_false,
        ite_true, ite_false] <;>
      (try split_ifs) <;> rfl

/-- Claim C10: on a non-resting sample, update_rest changes only the
rest-start timestamp; lastRestVoltage and lastSoc are retained, the capacity
tracker behaves exactly as it would on the unmodified state, and the
SoC field of the snapshot is unchanged. -/
theorem claim_C10 (st : BatteryEstimator) (now voltage c : ℚ) (temp_c : Option ℚ)
    (h : rest_current_threshold_a ≤ |c|) :
    BatteryEstimator.update_rest st now voltage (some c) temp_c
        = { st with last_rest_time := none }
    ∧ (BatteryEstimator.update_rest st now voltage (some c) temp_c).last_soc = st.last_soc
    ∧ (BatteryEstimator.update_rest st now voltage (some c) temp_c).last_rest_voltage
        = st.last_rest_voltage
    ∧ (∀ cur : Option ℚ, ∀ dt n : ℚ,
        BatteryEstimator.update_capacity
            (BatteryEstimator.update_rest st now voltage (some c) temp_c) cur dt n
          = { BatteryEstimator.update_capacity st cur dt n with last_rest_time := none })
    ∧ (∀ sv : ℚ, ∀ sc stc : Option ℚ,
        (BatteryEstimator.snapshot
            (BatteryEstimator.update_rest st now voltage (some c) temp_c) sv sc stc).soc
          = (BatteryEstimator.snapshot st sv sc stc).soc) := by
  have hb : isResting (some c) = false := by
    simp only [isResting, decide_eq_false_iff_not, not_lt]
    exact h
  have e1 : BatteryEstimator.update_rest st now voltage (some c) temp_c
      = { st with last_rest_time := none } := by
    simp [BatteryEstimator.update_rest, hb]
  refine ⟨e1, ?_, ?_, ?_, ?_⟩
  · rw [e1]
  · rw [e1]
  · intro cur dt n
    rw [e1]
    exact update_capacity_lrt st cur dt n
  · intro sv sc stc
    rw [e1]
    rfl

def c10State : BatteryEstimator :=
  { BatteryEstimator.mkInit with
      last_rest_time := some 5
      last_soc := some 0.9
      last_rest_voltage := some 12.62 }

/-- Witness for claim C10: a 3 A load sample retains the stored SoC both in
the estimator state and in the published snapshot. -/
theorem claim_C10_witness :
    (BatteryEstimator.update_rest c10State 10 11.9 (some 3) none).last_soc = c10State.last_soc
    ∧ (BatteryEstimator.snapshot
          (BatteryEstimator.update_rest c10State 10 11.9 (some 3) none) 11.9 (some 3) none).soc
        = (BatteryEstimator.snapshot c10State 11.9 (some 3) none).soc := by
  have h := claim_C10 c10State 10 11.9 3 none
    (by rw [abs_of_pos (by norm_num : (0:ℚ) < 3)]; norm_num [rest_current_threshold_a])
  exact ⟨h.2.1, h.2.2.2.2 11.9 (some 3) none⟩

/-- Claim C8: the estimator does not fail on absent inputs: a sample with no
current reading counts as resting (and behaves exactly like a zero-current
resting sample), the resistance sampler only refreshes prevVoltage and
prevCurrent, the capacity tracker leaves the whole state unchanged, and an
absent temperature leaves the voltage uncompensated while SoC promotion
still happens. -/
theorem claim_C8 (st : BatteryEstimator) (now voltage dt : ℚ) (temp_c : Option ℚ)
    (t0 : ℚ) :
    isResting none = true
    ∧ BatteryEstimator.update_rest st now voltage none temp_c
        = BatteryEstimator.update_rest st now voltage (some 0) temp_c
    ∧ BatteryEstimator.detect_rint st voltage none
        = { st with prev_voltage := some voltage, prev_current := none }
    ∧ BatteryEstimator.update_capacity st none dt now = st
    ∧ BatteryEstimator.temperature_compensate voltage none = voltage
    ∧ (st.last_rest_time = some t0 → ocv_rest_min_sec ≤ now - t0 →
        (BatteryEstimator.update_rest st now voltage none none).last_soc
          = some (interpolate_soc voltage)) := by
  obtain ⟨lrt, lrv, lsoc, rev, pv, pc, cap, cyc, mark, ref⟩ := st
  refine ⟨rfl, ?_, ?_, ?_, rfl, ?_⟩
  · have h0 : isResting (some 0) = true := by
      norm_num [isResting, rest_current_threshold_a]
    have hn : isResting none = true := rfl
    simp [BatteryEstimator.update_rest, h0, hn]
  · rcases pv with _ | a <;> rcases pc with _ | b <;> rfl
  · rcases lsoc with _ | s <;> rfl
  · intro h hge
    change lrt = some t0 at h
    subst h
    simp only [BatteryEstimator.update_rest, isResting, if_true]
    rw [if_pos hge]
    rfl

def c8State : BatteryEstimator := { BatteryEstimator.mkInit with last_rest_time := some 0 }

/-- Witness for claim C8: with no current sensor the capacity tracker is a
no-op and a long enough rest still promotes the uncompensated voltage. -/
theorem claim_C8_witness :
    BatteryEstimator.update_capacity c8State none 2 5 = c8State
    ∧ (BatteryEstimator.update_rest c8State 1800 12.32 none none).last_soc
        = some (interpolate_soc 12.32) := by
  have h := claim_C8 c8State 1800 12.32 2 none 0
  exact ⟨h.2.2.2.1, h.2.2.2.2.2 rfl (by norm_num [ocv_rest_min_sec])⟩

-- ---------------------------------------------------------------------------
-- Helper lemmas about the bounded resistance history and the baseline latch.
-- ---------------------------------------------------------------------------

lemma dequeAppend_length (m : Nat) (xs : List ℚ) (x : ℚ) :
    (dequeAppend m xs x).length = min (xs.length + 1) m := by
  simp [dequeAppend]
  omega

lemma dequeAppend_length_le (m : Nat) (xs : List ℚ) (x : ℚ) :
    (dequeAppend m xs x).length ≤ m := by
  rw [dequeAppend_length]
  omega

lemma dequeAppend_eq_append (m : Nat) (xs : List ℚ) (x : ℚ) (h : xs.length < m) :
    dequeAppend m xs x = xs ++ [x] := by
  show (xs ++ [x]).drop ((xs ++ [x]).length - m) = xs ++ [x]
  have hz : (xs ++ [x]).length - m = 0 := by
    simp
    omega
  rw [hz, List.drop_zero]

lemma detect_rint_ref_preserved (st : BatteryEstimator) (voltage : ℚ)
    (current : Option ℚ) (r0 : ℚ) (h : st.reference_rint = some r0) :
    (BatteryEstimator.detect_rint st voltage current).reference_rint = some r0 := by
  obtain ⟨lrt, lrv, lsoc, rev, pvf, pcf, cap, cyc, mark, ref⟩ := st
  change ref = some r0 at h
  subst h
  rcases pvf with _ | a <;> rcases pcf with _ | b <;> rcases current with _ | c
  · rfl
  · rfl
  · rfl
  · rfl
  · rfl
  · rfl
  · rfl
  · dsimp only [BatteryEstimator.detect_rint]
    split_ifs with h1 h2
    · exact h2.1.elim
    · rfl
    · rfl

lemma foldl_detect_ref_preserved (l : List (ℚ × Option ℚ)) (st : BatteryEstimator)
    (r0 : ℚ) (h : st.reference_rint = some r0) :
    (l.foldl (fun s p => BatteryEstimator.detect_rint s p.1 p.2) st).reference_rint
      = some r0 := by
  induction l generalizing st with
  | nil => exact h
  | cons p tl ih => exact ih _ (detect_rint_ref_preserved st p.1 p.2 r0 h)

lemma detect_rint_ref_none (st : BatteryEstimator) (voltage : ℚ)
    (current : Option ℚ) (h : st.reference_rint = none)
    (hlen : st.rint_events.length ≤ 3) :
    (BatteryEstimator.detect_rint st voltage current).reference_rint = none := by
  obtain ⟨lrt, lrv, lsoc, rev, pvf, pcf, cap, cyc, mark, ref⟩ := st
  change ref = none at h
  subst h
  change rev.length ≤ 3 at hlen
  rcases pvf with _ | a <;> rcases pcf with _ | b <;> rcases current with _ | c
  · rfl
  · rfl
  · rfl
  · rfl
  · rfl
  · rfl
  · rfl
  · dsimp only [BatteryEstimator.detect_rint]
    split_ifs with h1 h2
    · exfalso
      have h5 := h2.2
      rw [dequeAppend_length] at h5
      simp only [rint_window] at h5
      omega
    · rfl
    · rfl

lemma detect_rint_ref_set (st : BatteryEstimator) (voltage c pv pc : ℚ)
    (h : st.reference_rint = none) (hlen : st.rint_events.length = 4)
    (hv : st.prev_voltage = some pv) (hc : st.prev_current = some pc)
    (hdi : (0.5 : ℚ) < |c - pc|) (hdv : (0.02 : ℚ) < |voltage - pv|) :
    (BatteryEstimator.detect_rint st voltage (some c)).reference_rint
        = some (median (st.rint_events ++ [|voltage - pv| / |c - pc|]))
      ∧ (BatteryEstimator.detect_rint st voltage (some c)).rint_events.length = 5 := by
  obtain ⟨lrt, lrv, lsoc, rev, pvf, pcf, cap, cyc, mark, ref⟩ := st
  change ref = none at h
  subst h
  change rev.length = 4 at hlen
  change pvf = some pv at hv
  subst hv
  change pcf = some pc at hc
  subst hc
  dsimp only [BatteryEstimator.detect_rint]
  rw [if_pos ⟨hdi, hdv⟩]
  rw [dequeAppend_eq_append rint_window rev _ (by rw [hlen]; norm_num [rint_window])]
  rw [if_pos ⟨rfl, by simp [hlen]⟩]
  exact ⟨rfl, by simp [hlen]⟩

/-- Claim C4: referenceResistance is a one-time latch: it stays unset while
the history holds at most 3 samples, it is set to the median of the
5-element history exactly on the detected load step that grows the history
from 4 to 5, and once set no later sample (or sample sequence) ever changes
it. -/
theorem claim_C4 (st : BatteryEstimator) (voltage : ℚ) (current : Option ℚ) :
    (∀ r0 : ℚ, st.reference_rint = some r0 →
        (BatteryEstimator.detect_rint st voltage current).reference_rint = some r0)
    ∧ (∀ l : List (ℚ × Option ℚ), ∀ r0 : ℚ, st.reference_rint = some r0 →
        (l.foldl (fun s p => BatteryEstimator.detect_rint s p.1 p.2) st).reference_rint
          = some r0)
    ∧ (st.reference_rint = none → st.rint_events.length ≤ 3 →
        (BatteryEstimator.detect_rint st voltage current).reference_rint = none)
    ∧ (∀ pv pc c : ℚ, st.reference_rint = none → st.rint_events.length = 4 →
        st.prev_voltage = some pv → st.prev_current = some pc → current = some c →
        (0.5 : ℚ) < |c - pc| → (0.02 : ℚ) < |voltage - pv| →
        (BatteryEstimator.detect_rint st voltage current).reference_rint
            = some (median (st.rint_events ++ [|voltage - pv| / |c - pc|]))
          ∧ (BatteryEstimator.detect_rint st voltage current).rint_events.length = 5) := by
  refine ⟨fun r0 h => detect_rint_ref_preserved st voltage current r0 h,
    fun l r0 h => foldl_detect_ref_preserved l st r0 h,
    fun h hl => detect_rint_ref_none st voltage current h hl,
    fun pv pc c h hl hv hc hcur hdi hdv => ?_⟩
  subst hcur
  exact detect_rint_ref_set st voltage c pv pc h hl hv hc hdi hdv

def c4State : BatteryEstimator :=
  { BatteryEstimator.mkInit with
      rint_events := [0.1, 0.2, 0.3, 0.4]
      prev_voltage := some 12.5
      prev_current := some 0.5 }

/-- Witness for claim C4: the fifth detected load step (ΔV = −0.1 V,
ΔI = 1.0 A) latches the baseline to the median 0.2 Ω of the five samples. -/
theorem claim_C4_witness :
    (BatteryEstimator.detect_rint c4State 12.4 (some 1.5)).reference_rint = some 0.2
    ∧ (BatteryEstimator.detect_rint c4State 12.4 (some 1.5)).rint_events.length = 5 := by
  have e1 : |(12.4 : ℚ) - 12.5| = 0.1 := by
    rw [abs_sub_comm, abs_of_pos] <;> norm_num
  have e2 : |(1.5 : ℚ) - 0.5| = 1 := by
    rw [abs_of_pos] <;> norm_num
  have h := (claim_C4 c4State 12.4 (some 1.5)).2.2.2 12.5 0.5 1.5 rfl rfl rfl rfl rfl
    (by rw [e2]; norm_num) (by rw [e1]; norm_num)
  refine ⟨?_, h.2⟩
  rw [h.1, e1, e2]
  norm_num [c4State, median, List.insertionSort, List.orderedInsert]

/-- Claim C7: with both consecutive currents known, a resistance sample
r = ΔV-magnitude over ΔI-magnitude is pushed into the bounded history
(capacity rint_window = 10, oldest evicted first) exactly when both the
current delta exceeds 0.5 A and the voltage delta exceeds 0.02 V; otherwise
the history is untouched; prevVoltage and prevCurrent are refreshed either
way, and the history never grows beyond its capacity. -/
theorem claim_C7 (st : BatteryEstimator) (voltage c pv pc : ℚ)
    (hv : st.prev_voltage = some pv) (hc : st.prev_current = some pc) :
    ((0.5 : ℚ) < |c - pc| → (0.02 : ℚ) < |voltage - pv| →
      (BatteryEstimator.detect_rint st voltage (some c)).rint_events
        = dequeAppend rint_window st.rint_events (|voltage - pv| / |c - pc|))
    ∧ (¬((0.5 : ℚ) < |c - pc| ∧ (0.02 : ℚ) < |voltage - pv|) →
      (BatteryEstimator.detect_rint st voltage (some c)).rint_events = st.rint_events)
    ∧ (BatteryEstimator.detect_rint st voltage (some c)).prev_voltage = some voltage
    ∧ (BatteryEstimator.detect_rint st voltage (some c)).prev_current = some c
    ∧ (st.rint_events.length ≤ rint_window →
      (BatteryEstimator.detect_rint st voltage (some c)).rint_events.length
        ≤ rint_window) := by
  obtain ⟨lrt, lrv, lsoc, rev, pvf, pcf, cap, cyc, mark, ref⟩ := st
  change pvf = some pv at hv
  subst hv
  change pcf = some pc at hc
  subst hc
  refine ⟨fun hdi hdv => ?_, fun hn => ?_, ?_, ?_, fun hlen => ?_⟩
  · dsimp only [BatteryEstimator.detect_rint]
    rw [if_pos ⟨hdi, hdv⟩]
  · dsimp only [BatteryEstimator.detect_rint]
    rw [if_neg hn]
  · dsimp only [BatteryEstimator.detect_rint]
  · dsimp only [BatteryEstimator.detect_rint]
  · dsimp only [BatteryEstimator.detect_rint]
    split_ifs with h1 h2
    · exact dequeAppend_length_le rint_window rev _
    · exact dequeAppend_length_le rint_window rev _
    · exact hlen

def c7State : BatteryEstimator :=
  { BatteryEstimator.mkInit with
      prev_voltage := some 12.5
      prev_current := some 0.5 }

/-- Witness for claim C7: ΔI = 1.0 A with ΔV = 0.1 V records exactly one
sample of 0.1 ohm, while ΔI = 0.4 A with ΔV = 0.05 V records nothing; the
previous-sample registers are refreshed in both cases. -/
theorem claim_C7_witness :
    (BatteryEstimator.detect_rint c7State 12.4 (some 1.5)).rint_events = [0.1]
    ∧ (BatteryEstimator.detect_rint c7State 12.45 (some 0.9)).rint_events = []
    ∧ (BatteryEstimator.detect_rint c7State 12.4 (some 1.5)).prev_current = some 1.5 := by
  have e1 : |(12.4 : ℚ) - 12.5| = 0.1 := by
    rw [abs_sub_comm, abs_of_pos] <;> norm_num
  have e2 : |(1.5 : ℚ) - 0.5| = 1 := by
    rw [abs_of_pos] <;> norm_num
  have e3 : |(0.9 : ℚ) - 0.5| = 0.4 := by
    rw [abs_of_pos] <;> norm_num
  have h := claim_C7 c7State 12.4 1.5 12.5 0.5 rfl rfl
  have h2 := claim_C7 c7State 12.45 0.9 12.5 0.5 rfl rfl
  refine ⟨?_, ?_, h.2.2.2.1⟩
  · rw [h.1 (by rw [e2]; norm_num) (by rw [e1]; norm_num), e1, e2]
    norm_num [c7State, dequeAppend, rint_window, BatteryEstimator.mkInit]
  · rw [h2.2.1 (by rw [e3]; intro hx; exact absurd hx.1 (by norm_num))]
    rfl

-- ---------------------------------------------------------------------------
-- Claims C1 and C2: SoH combiner and capacity tracker.
-- ---------------------------------------------------------------------------

def c1State : BatteryEstimator := { BatteryEstimator.mkInit with capacity_est_ah := 48 }

/-- Counterexample to claim C1 as stated: with capacity ratio 0.8 (48 Ah of
60 Ah) and no resistance baseline, the composite SoH is 88.0, not 68.0, and
`degraded` is not among the flags built from the computed components. -/
theorem claim_C1_counterexample :
    (BatteryEstimator.compute_soh c1State).1 ≠ 68
    ∧ "degraded" ∉ BatteryEstimator.build_flags c1State
        (BatteryEstimator.compute_soh c1State).1
        (BatteryEstimator.compute_soh c1State).2.1
        (BatteryEstimator.compute_soh c1State).2.2 := by
  have hsoh : BatteryEstimator.compute_soh c1State = (88, 80, 100) := by
    norm_num [BatteryEstimator.compute_soh, c1State, BatteryEstimator.mkInit,
      nominal_capacity_ah, min_def]
  rw [hsoh]
  constructor
  · norm_num
  · norm_num [BatteryEstimator.build_flags, c1State, BatteryEstimator.mkInit]
    decide

/-- Claim C1 (amended): for any state with capacityEstimateAh / nominal = 0.8
and no resistance baseline, compute_soh returns exactly (88.0, 80.0, 100.0)
(composite 0.6*80 + 0.4*100 = 88), and the flags derived from these
components contain none of `degraded`, `capacity_fade`, `resistance_high`. -/
theorem claim_C1 (st : BatteryEstimator)
    (h1 : st.capacity_est_ah / nominal_capacity_ah = 0.8)
    (h2 : st.reference_rint = none) :
    BatteryEstimator.compute_soh st = (88, 80, 100)
    ∧ "degraded" ∉ BatteryEstimator.build_flags st 88 80 100
    ∧ "capacity_fade" ∉ BatteryEstimator.build_flags st 88 80 100
    ∧ "resistance_high" ∉ BatteryEstimator.build_flags st 88 80 100 := by
  have hsoh : BatteryEstimator.compute_soh st = (88, 80, 100) := by
    dsimp only [BatteryEstimator.compute_soh]
    rw [h1, h2]
    split_ifs <;> norm_num [min_def]
  refine ⟨hsoh, ?_, ?_, ?_⟩ <;>
    · dsimp only [BatteryEstimator.build_flags]
      split_ifs <;> simp_all <;> norm_num at *

/-- Witness for the amended claim C1, at 48 Ah of a 60 Ah nominal battery. -/
theorem claim_C1_witness :
    BatteryEstimator.compute_soh c1State = (88, 80, 100)
    ∧ "degraded" ∉ BatteryEstimator.build_flags c1State 88 80 100 := by
  have h := claim_C1 c1State
    (by norm_num [c1State, BatteryEstimator.mkInit, nominal_capacity_ah]) rfl
  exact ⟨h.1, h.2.1⟩

def c2State : BatteryEstimator :=
  { BatteryEstimator.mkInit with
      last_soc := some 0.96
      cycle_discharge_ah := 5 }

/-- Counterexample to claim C2 as stated: with SoC held at 0.96 and 5 Ah of
accumulated discharge, starting the settle timer at time 0 and sampling
again at time 1800 — exactly 1800 s elapsed, which satisfies "at least
1800 seconds" — produces no fold: the capacity estimate stays 60 (not
0.3*5 + 0.7*60 = 43.5) and cycleDischargeAh stays 5 (not reset). -/
theorem claim_C2_counterexample :
    (BatteryEstimator.update_capacity c2State (some 0) 2 0).last_soc_full_mark = some 0
    ∧ (BatteryEstimator.update_capacity
        (BatteryEstimator.update_capacity c2State (some 0) 2 0)
        (some 0) 2 1800).capacity_est_ah = 60
    ∧ (BatteryEstimator.update_capacity
        (BatteryEstimator.update_capacity c2State (some 0) 2 0)
        (some 0) 2 1800).cycle_discharge_ah = 5 := by
  have h1 : BatteryEstimator.update_capacity c2State (some 0) 2 0
      = { c2State with last_soc_full_mark := some 0 } := by
    norm_num [BatteryEstimator.update_capacity, c2State, BatteryEstimator.mkInit]
  have h2 : BatteryEstimator.update_capacity
      { c2State with last_soc_full_mark := some 0 } (some 0) 2 1800
      = { c2State with last_soc_full_mark := some 0 } := by
    norm_num [BatteryEstimator.update_capacity, c2State, BatteryEstimator.mkInit]
  rw [h1, h2]
  refine ⟨rfl, ?_, rfl⟩
  norm_num [c2State, BatteryEstimator.mkInit, nominal_capacity_ah]

/-- Claim C2 (amended): on a sample with known current and a running settle
timer started at time m, if lastSoc is at least 0.95 and strictly more than
1800 s have elapsed, then — provided the accumulated cycle discharge
(including the contribution of this tick) exceeds 1.0 Ah — capacityEstimateAh is
set to 0.3*discharge + 0.7*previous and cycleDischargeAh resets to 0; if
lastSoc has dropped below 0.95 no fold happens and the timer is cleared;
if at most 1800 s have elapsed no fold happens either. -/
theorem claim_C2 (st : BatteryEstimator) (c dt now m s : ℚ)
    (hsoc : st.last_soc = some s) (hmark : st.last_soc_full_mark = some m) :
    ((0.95 : ℚ) ≤ s → 1800 < now - m →
      (1 : ℚ) < st.cycle_discharge_ah + (if 0 < c then c * dt / 3600 else 0) →
      (BatteryEstimator.update_capacity st (some c) dt now).capacity_est_ah
          = 0.3 * (st.cycle_discharge_ah + (if 0 < c then c * dt / 3600 else 0))
            + 0.7 * st.capacity_est_ah
        ∧ (BatteryEstimator.update_capacity st (some c) dt now).cycle_discharge_ah = 0)
    ∧ (s < 0.95 →
      (BatteryEstimator.update_capacity st (some c) dt now).capacity_est_ah
          = st.capacity_est_ah
        ∧ (BatteryEstimator.update_capacity st (some c) dt now).last_soc_full_mark
          = none)
    ∧ ((0.95 : ℚ) ≤ s → now - m ≤ 1800 →
      (BatteryEstimator.update_capacity st (some c) dt now).capacity_est_ah
          = st.capacity_est_ah
        ∧ (BatteryEstimator.update_capacity st (some c) dt now).cycle_discharge_ah
          = st.cycle_discharge_ah + (if 0 < c then c * dt / 3600 else 0)) := by
  obtain ⟨lrt, lrv, lsoc, rev, pvf, pcf, cap, cyc, mark, ref⟩ := st
  change lsoc = some s at hsoc
  subst hsoc
  change mark = some m at hmark
  subst hmark
  refine ⟨fun h95 helapsed hd => ?_, fun hlt => ?_, fun h95 hle => ?_⟩
  · dsimp only [BatteryEstimator.update_capacity]
    by_cases hc : (0 : ℚ) < c <;>
      simp only [hc, gt_iff_lt, ge_iff_le, if_true, if_false, ite_true, ite_false] at hd ⊢ <;>
      rw [if_pos h95, if_pos helapsed, if_pos (by norm_num; linarith)] <;>
      exact ⟨by norm_num, by norm_num⟩
  · dsimp only [BatteryEstimator.update_capacity]
    by_cases hc : (0 : ℚ) < c <;>
      simp only [hc, gt_iff_lt, ge_iff_le, if_true, if_false, ite_true, ite_false] <;>
      rw [if_neg (not_le.mpr hlt)] <;>
      exact ⟨rfl, rfl⟩
  · dsimp only [BatteryEstimator.update_capacity]
    by_cases hc : (0 : ℚ) < c <;>
      simp only [hc, gt_iff_lt, ge_iff_le, if_true, if_false, ite_true, ite_false] <;>
      rw [if_pos h95, if_neg (not_lt.mpr hle)] <;>
      exact ⟨rfl, by norm_num⟩

def c2wState : BatteryEstimator :=
  { BatteryEstimator.mkInit with
      last_soc := some 0.96
      cycle_discharge_ah := 5
      last_soc_full_mark := some 0 }

/-- Witness for the amended claim C2: at 1801 s (strictly more than 1800 s)
with 5 Ah accumulated, the estimate folds to 0.3*5 + 0.7*60 = 43.5 Ah and
the accumulator resets. -/
theorem claim_C2_witness :
    (BatteryEstimator.update_capacity c2wState (some 0) 2 1801).capacity_est_ah = 43.5
    ∧ (BatteryEstimator.update_capacity c2wState (some 0) 2 1801).cycle_discharge_ah
        = 0 := by
  have h := (claim_C2 c2wState 0 2 1801 0 0.96 rfl rfl).1 (by norm_num) (by norm_num)
    (by norm_num [c2wState, BatteryEstimator.mkInit])
  refine ⟨?_, h.2⟩
  rw [h.1]
  norm_num [c2wState, BatteryEstimator.mkInit, nominal_capacity_ah]
